import Mathlib

/-!
Shallow embedding of the walloc memory allocator
(src/engine/walloc/walloc/src/lib.rs): a dual-strategy
allocator over a growable wasm32 linear-memory region, offering a
free-list allocator (`DefaultAllocator`) and a tiered bump allocator
(`TieredAllocator`) behind a single facade (`Walloc`).

Machine integers (`usize` on wasm32) are modelled as `Nat`: all the
quantities involved (sizes, offsets, page counts) stay far below
`2^32` in every scenario considered, and the source itself relies on
no wrap-around.  Raw pointers are modelled as `Nat` addresses.
Mutation is modelled by explicit state passing; the atomic CAS loop of
`Arena::allocate` is modelled by its sequential meaning (the CAS
succeeds on the first try — the claims below are all about sequential
behaviour).
-/

/-- wasm32 page size in bytes (64 KiB). -/
def pageSize : Nat := 65536

/-- Maximum wasm32 memory in pages (4 GiB): `memory_grow` fails exactly
when the new total would exceed this (the model of the wasm runtime's
refusal, matching the 4 GiB check hard-coded in `fast_compact_tier`). -/
def maxPages : Nat := 65536

/-- `size_of::<BlockHeader>()` on wasm32: `usize` (4) + pointer (4) +
`bool` (1) + `u8` (1), padded to 12 under `repr(C)`. -/
def headerSize : Nat := 12

/-- `core::arch::wasm32::memory_grow(0, delta)` given the current page
count: returns the old page count on success, `none` on failure. -/
def memoryGrow (pages delta : Nat) : Option Nat :=
  if pages + delta ≤ maxPages then some pages else none

/-- The `Tier` enum: Render = 0, Scene = 1, Entity = 2. -/
inductive Tier
  | Render
  | Scene
  | Entity
deriving DecidableEq, Repr

/-- `Tier::from_u8`. -/
def Tier.fromU8 (value : Nat) : Option Tier :=
  match value with
  | 0 => some Tier.Render
  | 1 => some Tier.Scene
  | 2 => some Tier.Entity
  | _ => none

/-- Per-tier alignment of a request, from `Arena::allocate`:
`(size + 127) & !127` for Render, `(size + 63) & !63` for Scene,
`(size + 7) & !7` for Entity (round up to a power-of-two multiple). -/
def tierAlign (tier : Tier) (size : Nat) : Nat :=
  match tier with
  | Tier.Render => (size + 127) / 128 * 128
  | Tier.Scene => (size + 63) / 64 * 64
  | Tier.Entity => (size + 7) / 8 * 8

/-- Alignment in `DefaultAllocator::malloc`: 64-byte cache-line
alignment for requests over 1024 bytes, 8-byte alignment otherwise. -/
def alignedSizeDefault (size : Nat) : Nat :=
  if size > 1024 then (size + 63) / 64 * 64 else (size + 7) / 8 * 8

/-- A `BlockHeader` of the free list.  The intrusive `next` pointer is
represented by the list structure itself (the source keeps the blocks
in increasing address order: the initial block covers the whole heap,
a split inserts the remainder right after the split block, growth
appends at the old heap end, and coalescing merges neighbours). -/
structure BlockHeader where
  size : Nat
  is_free : Bool
  tier : Nat
deriving DecidableEq, Repr

/-- Sum of the `size` fields (each includes the header) of a block list. -/
def sumBlocks (blocks : List BlockHeader) : Nat :=
  blocks.foldr (fun b acc => b.size + acc) 0

/-- `DefaultAllocator` state: the block list plus the owned range
`[heap_start, heap_end)`. -/
structure DefaultAllocator where
  blocks : List BlockHeader
  heapStart : Nat
  heapEnd : Nat
deriving DecidableEq, Repr

/-- `DefaultAllocator::new`: one free block covering the whole heap. -/
def DefaultAllocator.new (heapStart heapSize : Nat) : DefaultAllocator :=
  { blocks := [⟨heapSize, true, 255⟩]
    heapStart := heapStart
    heapEnd := heapStart + heapSize }

/-- First-fit scan of `DefaultAllocator::malloc`: `addr` is the address
of the head block.  On success returns the rewritten block list and the
data pointer (block address + header size); splits the found block when
the remainder can hold a header plus 8 payload bytes. -/
def mallocLoop (totalSize : Nat) : Nat → List BlockHeader → Option (List BlockHeader × Nat)
  | _, [] => none
  | addr, x :: xs =>
    if x.is_free ∧ totalSize ≤ x.size then
      if totalSize + headerSize + 8 ≤ x.size then
        some (⟨totalSize, false, x.tier⟩ :: ⟨x.size - totalSize, true, x.tier⟩ :: xs,
              addr + headerSize)
      else
        some (⟨x.size, false, x.tier⟩ :: xs, addr + headerSize)
    else
      match mallocLoop totalSize (addr + x.size) xs with
      | some (ys, p) => some (x :: ys, p)
      | none => none

/-- `DefaultAllocator::grow_heap`: grow by exactly the pages needed for
`sizeNeeded`, append the fresh free block at the heap end, then retry.
The source retries by recursing into `malloc(size_needed - header)`,
which recomputes the same `total_size`; since the fresh block always
has `size ≥ sizeNeeded`, that recursion performs exactly one more
first-fit scan, which is what is modelled here. -/
def DefaultAllocator.growHeap (d : DefaultAllocator) (pages sizeNeeded : Nat) :
    DefaultAllocator × Nat × Option Nat :=
  let pagesNeeded := (sizeNeeded + 65535) / 65536
  match memoryGrow pages pagesNeeded with
  | none => (d, pages, none)
  | some _ =>
    let newBlockSize := pagesNeeded * 65536
    let d' : DefaultAllocator :=
      { blocks := d.blocks ++ [⟨newBlockSize, true, 255⟩]
        heapStart := d.heapStart
        heapEnd := d.heapEnd + newBlockSize }
    match mallocLoop sizeNeeded d'.heapStart d'.blocks with
    | some (bs, p) => ({ d' with blocks := bs }, pages + pagesNeeded, some p)
    | none => (d', pages + pagesNeeded, none)

/-- `DefaultAllocator::malloc`: align, add the header size, first-fit
scan, and on failure grow the heap and retry. -/
def DefaultAllocator.malloc (d : DefaultAllocator) (pages size : Nat) :
    DefaultAllocator × Nat × Option Nat :=
  let totalSize := alignedSizeDefault size + headerSize
  match mallocLoop totalSize d.heapStart d.blocks with
  | some (bs, p) => ({ d with blocks := bs }, pages, some p)
  | none => d.growHeap pages totalSize

/-- Forward coalescing step of `DefaultAllocator::free`: `b` is the
just-freed block; merge it with the next block when that one is free
(`block.size += next.size; block.next = next.next`). -/
def fwdMerge (b : BlockHeader) (rest : List BlockHeader) : List BlockHeader :=
  match rest with
  | [] => [b]
  | y :: ys => if y.is_free then { b with size := b.size + y.size } :: ys else b :: y :: ys

/-- Backward coalescing step of `DefaultAllocator::free`: `x` is the
list predecessor of the freed block at the head of `rest`; merge the
freed block into `x` when `x` is free. -/
def bwdMerge (x : BlockHeader) (rest : List BlockHeader) : List BlockHeader :=
  match rest with
  | [] => [x]
  | y :: ys => if x.is_free then { x with size := x.size + y.size } :: ys else x :: y :: ys

/-- `DefaultAllocator::free` at a block-header address `target`:
mark the block free, coalesce forward with the next block, then
coalesce backward into the list predecessor (the source finds the
predecessor by scanning from the head for the node whose `next` is
the freed block).  A `target` that is no block's address leaves the
list unchanged (in the source that would be undefined behaviour; the
facade only ever frees previously returned pointers). -/
def freeGo (target : Nat) : Nat → List BlockHeader → List BlockHeader
  | _, [] => []
  | addr, x :: xs =>
    if target = addr then fwdMerge { x with is_free := true } xs
    else
      match xs with
      | [] => [x]
      | y :: ys =>
        if target = addr + x.size then
          bwdMerge x (fwdMerge { y with is_free := true } ys)
        else
          x :: freeGo target (addr + x.size) (y :: ys)

/-- `DefaultAllocator::free`: null is a no-op; otherwise step back over
the header from the data pointer and free that block. -/
def DefaultAllocator.free (d : DefaultAllocator) (ptr : Nat) : DefaultAllocator :=
  if ptr = 0 then d
  else { d with blocks := freeGo (ptr - headerSize) d.heapStart d.blocks }

/-- `DefaultAllocator::is_ptr_in_heap`. -/
def DefaultAllocator.is_ptr_in_heap (d : DefaultAllocator) (ptr : Nat) : Bool :=
  decide (d.heapStart ≤ ptr ∧ ptr < d.heapEnd)

/-- `Arena`: one tier's bump allocator. -/
structure Arena where
  base : Nat
  size : Nat
  current_offset : Nat
  tier : Tier
  high_water_mark : Nat
  total_allocated : Nat
deriving DecidableEq, Repr

/-- `Arena::new`. -/
def Arena.new (base size : Nat) (tier : Tier) : Arena :=
  { base := base, size := size, current_offset := 0, tier := tier
    high_water_mark := 0, total_allocated := 0 }

/-- `Arena::allocate`: align per tier, fail when the bump would pass
the capacity, otherwise advance the cursor, raise the high-water mark
and add to the total; returns the pointer and the aligned size. -/
def Arena.allocate (a : Arena) (size : Nat) : Option (Nat × Nat) × Arena :=
  let alignedSize := tierAlign a.tier size
  if a.current_offset + alignedSize > a.size then (none, a)
  else
    let newOffset := a.current_offset + alignedSize
    (some (a.base + a.current_offset, alignedSize),
     { a with current_offset := newOffset
              high_water_mark := max a.high_water_mark newOffset
              total_allocated := a.total_allocated + alignedSize })

/-- `Arena::reset`: cursor back to 0. -/
def Arena.reset (a : Arena) : Arena :=
  { a with current_offset := 0 }

/-- `Arena::contains`. -/
def Arena.contains (a : Arena) (ptr : Nat) : Bool :=
  decide (a.base ≤ ptr ∧ ptr < a.base + a.size)

/-- `Arena::usage`. -/
def Arena.usage (a : Arena) : Nat := a.current_offset

/-- `Arena::capacity`. -/
def Arena.capacity (a : Arena) : Nat := a.size

/-- `Arena::fast_compact`: truncate the cursor to `preserveBytes`, or
fail without change when more than the cursor would be preserved. -/
def Arena.fast_compact (a : Arena) (preserveBytes : Nat) : Bool × Arena :=
  if preserveBytes > a.current_offset then (false, a)
  else (true, { a with current_offset := preserveBytes })

/-- `Arena::get_stats`: (usage, capacity, high-water mark, total allocated). -/
def Arena.get_stats (a : Arena) : Nat × Nat × Nat × Nat :=
  (a.usage, a.capacity, a.high_water_mark, a.total_allocated)

/-- `TieredAllocator`: the three arenas (the mutexes of the source are
irrelevant to the sequential model). -/
structure TieredAllocator where
  render_arena : Arena
  scene_arena : Arena
  entity_arena : Arena
deriving DecidableEq, Repr

/-- `TieredAllocator::new`: 50/30/20 split of the region. -/
def TieredAllocator.new (memoryBase memorySize : Nat) : TieredAllocator :=
  let renderSize := memorySize * 50 / 100
  let sceneSize := memorySize * 30 / 100
  let entitySize := memorySize * 20 / 100
  let renderBase := memoryBase
  let sceneBase := renderBase + renderSize
  let entityBase := sceneBase + sceneSize
  { render_arena := Arena.new renderBase renderSize Tier.Render
    scene_arena := Arena.new sceneBase sceneSize Tier.Scene
    entity_arena := Arena.new entityBase entitySize Tier.Entity }

/-- The arena a tier selects (the repeated `match tier` of the source). -/
def TieredAllocator.getArena (t : TieredAllocator) : Tier → Arena
  | Tier.Render => t.render_arena
  | Tier.Scene => t.scene_arena
  | Tier.Entity => t.entity_arena

/-- Replace the arena of one tier. -/
def TieredAllocator.setArena (t : TieredAllocator) (tier : Tier) (a : Arena) :
    TieredAllocator :=
  match tier with
  | Tier.Render => { t with render_arena := a }
  | Tier.Scene => { t with scene_arena := a }
  | Tier.Entity => { t with entity_arena := a }

/-- `TieredAllocator::grow_heap`: grow by exactly the pages needed for
`sizeNeeded` and REPLACE the tier's arena by a fresh one over only the
newly grown range (base = old page count × 64 KiB, fresh counters).
Returns the new base on success. -/
def TieredAllocator.growHeap (t : TieredAllocator) (pages sizeNeeded : Nat) (tier : Tier) :
    Option Nat × TieredAllocator × Nat :=
  let pagesNeeded := (sizeNeeded + 65535) / 65536
  match memoryGrow pages pagesNeeded with
  | none => (none, t, pages)
  | some oldPages =>
    let newBlockSize := pagesNeeded * 65536
    let newMemoryBase := oldPages * 65536
    let newArena := Arena.new newMemoryBase newBlockSize tier
    (some newMemoryBase, t.setArena tier newArena, pages + pagesNeeded)

/-- `TieredAllocator::reset_tier`. -/
def TieredAllocator.reset_tier (t : TieredAllocator) (tier : Tier) : TieredAllocator :=
  t.setArena tier (t.getArena tier).reset

/-- `TieredAllocator::allocate`: bump-allocate from the tier's arena;
on failure grow the heap (exactly sized) and retry once; if growth
failed and the tier's usage exceeds the request, reset the tier and
retry once; otherwise return null (`none`). -/
def TieredAllocator.allocate (t : TieredAllocator) (pages size : Nat) (tier : Tier) :
    Option Nat × TieredAllocator × Nat :=
  match (t.getArena tier).allocate size with
  | (some (ptr, _), a') => (some ptr, t.setArena tier a', pages)
  | (none, _) =>
    match t.growHeap pages size tier with
    | (some _, t', pages') =>
      match (t'.getArena tier).allocate size with
      | (some (newPtr, _), a'') => (some newPtr, t'.setArena tier a'', pages')
      | (none, _) => (none, t', pages')
    | (none, t', pages') =>
      let stats := (t'.getArena tier).get_stats
      let currentUsage := stats.1
      if currentUsage > size then
        let t'' := t'.reset_tier tier
        match (t''.getArena tier).allocate size with
        | (some (newPtr, _), a'') => (some newPtr, t''.setArena tier a'', pages')
        | (none, a'') => (none, t''.setArena tier a'', pages')
      else
        (none, t', pages')

/-- Store a value into a tier's cursor (the
`arena.current_offset.store(..)` calls of `fast_compact_tier`). -/
def TieredAllocator.storeCursor (t : TieredAllocator) (tier : Tier) (value : Nat) :
    TieredAllocator :=
  t.setArena tier { t.getArena tier with current_offset := value }

/-- `TieredAllocator::fast_compact_tier`: when `preserveBytes` exceeds
the cursor and the capacity, check the 4 GiB limit, copy out the live
prefix, grow (replacing the arena), copy back and set the cursor to the
copied length and then to `preserveBytes`; when it exceeds only the
cursor, just store `preserveBytes`; otherwise delegate to
`Arena::fast_compact`.  (The payload bytes themselves are not
modelled; the copied length, which the cursor stores pass through, is.) -/
def TieredAllocator.fast_compact_tier (t : TieredAllocator) (pages : Nat) (tier : Tier)
    (preserveBytes : Nat) : Bool × TieredAllocator × Nat :=
  let currentOffset := (t.getArena tier).current_offset
  let capacity := (t.getArena tier).capacity
  if preserveBytes > currentOffset then
    if preserveBytes > capacity then
      let totalCurrentPages := pages
      let additionalBytesNeeded := preserveBytes - currentOffset
      let additionalPagesNeeded := (additionalBytesNeeded + 65535) / 65536
      if totalCurrentPages + additionalPagesNeeded > maxPages then
        (false, t, pages)
      else
        let preserveLen : Option Nat :=
          if currentOffset > 0 then some (min currentOffset preserveBytes) else none
        match t.growHeap pages additionalBytesNeeded tier with
        | (none, t', pages') => (false, t', pages')
        | (some _, t', pages') =>
          let t'' := match preserveLen with
            | some len => t'.storeCursor tier len
            | none => t'
          (true, t''.storeCursor tier preserveBytes, pages')
    else
      (true, t.storeCursor tier preserveBytes, pages)
  else
    let (ok, a') := (t.getArena tier).fast_compact preserveBytes
    (ok, t.setArena tier a', pages)

/-- `TieredAllocator::tier_stats`. -/
def TieredAllocator.tier_stats (t : TieredAllocator) (tier : Tier) :
    Nat × Nat × Nat × Nat :=
  (t.getArena tier).get_stats

/-- `AllocatorStrategy`. -/
inductive AllocatorStrategy
  | Default (d : DefaultAllocator)
  | Tiered (t : TieredAllocator)
deriving DecidableEq, Repr

/-- The `Walloc` facade.  `pages` is the wasm linear-memory page count
(`core::arch::wasm32::memory_size(0)`), carried in the state so that
`memory_grow` / `memory_size` can be modelled. -/
structure Walloc where
  strategy : AllocatorStrategy
  memory_base : Nat
  memory_size : Nat
  pages : Nat
deriving DecidableEq, Repr

/-- `Walloc::new`: note that the source sets `memory_base` to
`memory_size(0) as *mut u8`, i.e. the PAGE COUNT reinterpreted as an
address, and `memory_size` to `memory_size(0) * 65536`. -/
def Walloc.new (pages : Nat) : Walloc :=
  let memoryBase := pages
  let memorySize := pages * 65536
  { strategy := AllocatorStrategy.Default (DefaultAllocator.new memoryBase memorySize)
    memory_base := memoryBase
    memory_size := memorySize
    pages := pages }

/-- `Walloc::new_tiered`: same `memory_base` convention as `Walloc::new`. -/
def Walloc.new_tiered (pages : Nat) : Walloc :=
  let memoryBase := pages
  let memorySize := pages * 65536
  { strategy := AllocatorStrategy.Tiered (TieredAllocator.new memoryBase memorySize)
    memory_base := memoryBase
    memory_size := memorySize
    pages := pages }

/-- `Walloc::allocate_tiered`: an invalid tier number defaults to
Entity; a default-strategy facade returns 0 at once; otherwise run the
tiered allocation, refresh `memory_size`, and return the offset from
`memory_base` (0 for a null pointer). -/
def Walloc.allocate_tiered (w : Walloc) (size : Nat) (tierNumber : Nat) : Walloc × Nat :=
  let tier := (Tier.fromU8 tierNumber).getD Tier.Entity
  match w.strategy with
  | AllocatorStrategy.Tiered allocator =>
    let (ptr, t', pages') := allocator.allocate w.pages size tier
    let w' := { w with strategy := AllocatorStrategy.Tiered t'
                       pages := pages'
                       memory_size := pages' * 65536 }
    match ptr with
    | none => (w', 0)
    | some p => (w', p - w.memory_base)
  | _ => (w, 0)

/-- `Walloc::fast_compact_tier`: an invalid tier number returns false
without fallback; a default-strategy facade returns false. -/
def Walloc.fast_compact_tier (w : Walloc) (tierNumber preserveBytes : Nat) : Walloc × Bool :=
  match Tier.fromU8 tierNumber with
  | none => (w, false)
  | some tier =>
    match w.strategy with
    | AllocatorStrategy.Tiered allocator =>
      let (ok, t', pages') := allocator.fast_compact_tier w.pages tier preserveBytes
      ({ w with strategy := AllocatorStrategy.Tiered t', pages := pages' }, ok)
    | _ => (w, false)

/-- `Walloc::reset_tier`: an invalid tier number returns false without
fallback; a default-strategy facade returns false. -/
def Walloc.reset_tier (w : Walloc) (tierNumber : Nat) : Walloc × Bool :=
  match Tier.fromU8 tierNumber with
  | none => (w, false)
  | some tier =>
    match w.strategy with
    | AllocatorStrategy.Tiered allocator =>
      ({ w with strategy := AllocatorStrategy.Tiered (allocator.reset_tier tier) }, true)
    | _ => (w, false)

/-- `Walloc::allocate` (default mode): run `malloc`, refresh
`memory_size`, and return the offset from `memory_base` (0 for null). -/
def Walloc.allocate (w : Walloc) (size : Nat) : Walloc × Nat :=
  match w.strategy with
  | AllocatorStrategy.Default allocator =>
    let (d', pages', ptr) := allocator.malloc w.pages size
    let w' := { w with strategy := AllocatorStrategy.Default d'
                       pages := pages'
                       memory_size := pages' * 65536 }
    match ptr with
    | none => (w', 0)
    | some p => (w', p - w.memory_base)
  | _ => (w, 0)

/-- `Walloc::free`: offset 0 is a no-op; in default mode a pointer
inside the heap is released through `DefaultAllocator::free`; in
tiered mode the validity check is hard-wired to false, so nothing ever
happens.  The returned Bool records whether `DefaultAllocator::free`
was invoked (the observable "delegation" of the release). -/
def Walloc.free (w : Walloc) (offset : Nat) : Walloc × Bool :=
  if offset = 0 then (w, false)
  else
    let ptr := w.memory_base + offset
    let isValid := match w.strategy with
      | AllocatorStrategy.Default allocator => allocator.is_ptr_in_heap ptr
      | _ => false
    if isValid then
      match w.strategy with
      | AllocatorStrategy.Default allocator =>
        ({ w with strategy := AllocatorStrategy.Default (allocator.free ptr) }, true)
      | _ => (w, false)
    else (w, false)

/-- Observer: the arena of a tier behind the facade (`none` in default mode). -/
def Walloc.tierArena (w : Walloc) (tier : Tier) : Option Arena :=
  match w.strategy with
  | AllocatorStrategy.Tiered t => some (t.getArena tier)
  | _ => none

theorem getArena_setArena_self (t : TieredAllocator) (tier : Tier) (a : Arena) :
    (t.setArena tier a).getArena tier = a := by
  cases tier <;> rfl

theorem getArena_setArena_ne (t : TieredAllocator) (tier tier' : Tier) (a : Arena)
    (h : tier' ≠ tier) : (t.setArena tier a).getArena tier' = t.getArena tier' := by
  cases tier <;> cases tier' <;> first | rfl | exact absurd rfl h

/-- C1: the claim says the returned region-relative offset is 0 if and
only if the allocation failed, in particular for the first allocation
in the Render tier.  The code violates this: on a fresh tiered facade
over 16 pages, `allocate_tiered(100, Render)` SUCCEEDS (the Render
arena cursor advances from 0 to 128, the arena starting at the region
base), yet the returned offset is `ptr - memory_base = 0`, the failure
sentinel.  (No allocation path panics: every operation of the model is
a total function.) -/
theorem c1_first_render_allocation_returns_failure_sentinel :
    (((Walloc.new_tiered 16).allocate_tiered 100 0).2 = 0) ∧
    (((Walloc.new_tiered 16).allocate_tiered 100 0).1.tierArena Tier.Render).map
        Arena.usage = some 128 ∧
    ((Walloc.new_tiered 16).tierArena Tier.Render).map Arena.usage = some 0 := by
  decide

/-- C2: the claim says `0 ≤ cursor ≤ capacity` holds for every arena
under every operation sequence, including the compact path that grows
the region.  The code violates it on that path: filling the Entity
tier of a 5-page region (capacity 65536, cursor 65536) and then
calling `fast_compact_tier(Entity, 131000)` grows by only
`ceil((131000 - 65536)/65536) = 1` page, REPLACES the arena by one of
capacity 65536 over the new page, and stores cursor = 131000 — the
call reports success and leaves cursor 131000 > capacity 65536. -/
theorem c2_compact_grow_sets_cursor_beyond_capacity :
    (((((Walloc.new_tiered 5).allocate_tiered 65536 2).1.fast_compact_tier 2
        131000).1.tierArena Tier.Entity).map Arena.usage = some 131000) ∧
    (((((Walloc.new_tiered 5).allocate_tiered 65536 2).1.fast_compact_tier 2
        131000).1.tierArena Tier.Entity).map Arena.capacity = some 65536) ∧
    ((((Walloc.new_tiered 5).allocate_tiered 65536 2).1.fast_compact_tier 2
        131000).2 = true) ∧ 65536 < 131000 := by
  decide

/-- C5: the claim says a tier's high-water mark and total-allocated
counter never decrease, including across grow-and-rebuild of the
tier's arena.  The code violates this: `grow_heap` REPLACES the
tier's arena by `Arena::new(..)` with zeroed counters.  Filling the
Render tier of a 5-page region drives both counters to 163840; the
next `allocate_tiered(100, Render)` triggers the grow path, after
which the tier reports high-water mark 128 and total allocated 128. -/
theorem c5_grow_rebuild_resets_high_water_mark :
    ((((Walloc.new_tiered 5).allocate_tiered 163840 0).1.tierArena Tier.Render).map
        (fun a => a.high_water_mark) = some 163840) ∧
    ((((Walloc.new_tiered 5).allocate_tiered 163840 0).1.tierArena Tier.Render).map
        (fun a => a.total_allocated) = some 163840) ∧
    (((((Walloc.new_tiered 5).allocate_tiered 163840 0).1.allocate_tiered 100
        0).1.tierArena Tier.Render).map (fun a => a.high_water_mark) = some 128) ∧
    (((((Walloc.new_tiered 5).allocate_tiered 163840 0).1.allocate_tiered 100
        0).1.tierArena Tier.Render).map (fun a => a.total_allocated) = some 128) ∧
    128 < 163840 := by
  decide

/-- C7 counterexample: the claim says that in tiered mode
`free(offset)` delegates offsets outside all arenas to a fallback
FreeListAllocator.  On a fresh 16-page tiered facade, offset 1048577
lies outside all three arenas (and is nonzero), yet `free` performs
nothing: the Bool recording whether `DefaultAllocator::free` ran is
false and the state is unchanged — there is no fallback allocator in
tiered mode (`Walloc::free` hard-wires validity to false for any
non-Default strategy). -/
theorem c7_no_delegation_outside_arenas :
    (((Walloc.new_tiered 16).tierArena Tier.Render).map
        (fun a => a.contains ((Walloc.new_tiered 16).memory_base + 1048577)) =
      some false) ∧
    (((Walloc.new_tiered 16).tierArena Tier.Scene).map
        (fun a => a.contains ((Walloc.new_tiered 16).memory_base + 1048577)) =
      some false) ∧
    (((Walloc.new_tiered 16).tierArena Tier.Entity).map
        (fun a => a.contains ((Walloc.new_tiered 16).memory_base + 1048577)) =
      some false) ∧
    (Walloc.new_tiered 16).free 1048577 = (Walloc.new_tiered 16, false) := by
  decide

/-- C7 amended: in tiered mode, `free(offset)` is a no-op for EVERY
offset — arena-resident or not — and never delegates to a free-list
release (no fallback FreeListAllocator exists in tiered mode); the
tiered allocator's arena state is unchanged in every case. -/
theorem c7_tiered_free_is_noop (t : TieredAllocator) (mb ms pg offset : Nat) :
    Walloc.free ⟨AllocatorStrategy.Tiered t, mb, ms, pg⟩ offset =
      (⟨AllocatorStrategy.Tiered t, mb, ms, pg⟩, false) := by
  unfold Walloc.free
  split <;> rfl

/-- C9 counterexample: the claim says `reset_tier` (like
`allocate_tiered` and `fast_compact_tier`) falls back to the Entity
tier on an unrecognized tier identifier.  On a tiered facade whose
Entity arena holds 8 bytes, `reset_tier(3)` returns false and changes
nothing, while the claimed fallback behaviour `reset_tier(2)` resets
the Entity cursor and returns true — the two results differ. -/
theorem c9_reset_tier_does_not_fall_back :
    (((Walloc.new_tiered 16).allocate_tiered 5 2).1.reset_tier 3 =
      (((Walloc.new_tiered 16).allocate_tiered 5 2).1, false)) ∧
    ((((Walloc.new_tiered 16).allocate_tiered 5 2).1.reset_tier 2).2 = true) ∧
    (((Walloc.new_tiered 16).allocate_tiered 5 2).1.reset_tier 3 ≠
      ((Walloc.new_tiered 16).allocate_tiered 5 2).1.reset_tier 2) ∧
    ((((Walloc.new_tiered 16).allocate_tiered 5 2).1.fast_compact_tier 3 0).2 = false) := by
  decide

/-- C9 amended: on an unrecognized tier identifier, only
`allocate_tiered` falls back to the Entity tier (it behaves exactly as
with tier number 2); `reset_tier` and `fast_compact_tier` instead
return false and leave the facade unchanged. -/
theorem c9_only_allocate_falls_back (w : Walloc) (size preserveBytes n : Nat)
    (h : Tier.fromU8 n = none) :
    w.allocate_tiered size n = w.allocate_tiered size 2 ∧
    w.reset_tier n = (w, false) ∧
    w.fast_compact_tier n preserveBytes = (w, false) := by
  refine ⟨?_, ?_, ?_⟩
  · unfold Walloc.allocate_tiered
    rw [h]
    rfl
  · unfold Walloc.reset_tier
    rw [h]
  · unfold Walloc.fast_compact_tier
    rw [h]

/-- C9 amended, witness: tier number 7 is unrecognized and the amended
behaviour holds on a concrete facade. -/
theorem c9_only_allocate_falls_back_witness :
    (Walloc.new_tiered 4).allocate_tiered 24 7 = (Walloc.new_tiered 4).allocate_tiered 24 2 ∧
    (Walloc.new_tiered 4).reset_tier 7 = (Walloc.new_tiered 4, false) ∧
    (Walloc.new_tiered 4).fast_compact_tier 7 16 = (Walloc.new_tiered 4, false) :=
  c9_only_allocate_falls_back (Walloc.new_tiered 4) 24 16 7 (by decide)

/-- C6: `Arena::fast_compact(preserve_bytes)` sets the cursor to
`preserve_bytes` and returns true exactly when `preserve_bytes` is at
most the current cursor, and returns false with the arena unchanged
otherwise; consequently `fast_compact_tier(tier, K)` with `K ≤ usage()`
returns true, leaves `usage() = K`, and the next successful allocation
in that tier starts at tier-local offset `K` (address base + K). -/
theorem c6_truncate_exactly_when_within_cursor (t : TieredAllocator)
    (pages preserveBytes size : Nat) (tier : Tier)
    (h : preserveBytes ≤ (t.getArena tier).usage) :
    (∀ (a : Arena) (pb : Nat),
      (((a.fast_compact pb).1 = true ∧
        (a.fast_compact pb).2 = { a with current_offset := pb }) ↔
          pb ≤ a.current_offset) ∧
      ((a.fast_compact pb).1 = false → (a.fast_compact pb).2 = a)) ∧
    (t.fast_compact_tier pages tier preserveBytes).1 = true ∧
    ((t.fast_compact_tier pages tier preserveBytes).2.1.getArena tier).usage =
      preserveBytes ∧
    (∀ p asz,
      (((t.fast_compact_tier pages tier preserveBytes).2.1.getArena tier).allocate
          size).1 = some (p, asz) →
        p = (t.getArena tier).base + preserveBytes) := by
  have husage : ¬ (preserveBytes > (t.getArena tier).current_offset) := by
    unfold Arena.usage at h
    omega
  have hfc : (t.getArena tier).fast_compact preserveBytes =
      (true, { t.getArena tier with current_offset := preserveBytes }) := by
    unfold Arena.fast_compact
    rw [if_neg husage]
  refine ⟨?_, ?_⟩
  · intro a pb
    constructor
    · unfold Arena.fast_compact
      by_cases hpb : pb > a.current_offset
      · simp only [if_pos hpb]
        constructor
        · rintro ⟨hcontra, -⟩
          cases hcontra
        · intro hle
          omega
      · simp only [if_neg hpb]
        constructor
        · intro
          omega
        · intro
          exact ⟨trivial, trivial⟩
    · unfold Arena.fast_compact
      by_cases hpb : pb > a.current_offset
      · simp [if_pos hpb]
      · simp [if_neg hpb]
  · unfold TieredAllocator.fast_compact_tier
    rw [if_neg husage, hfc]
    simp only [getArena_setArena_self]
    refine ⟨trivial, rfl, ?_⟩
    intro p asz hp
    unfold Arena.allocate at hp
    by_cases hfit : preserveBytes + tierAlign (t.getArena tier).tier size >
        (t.getArena tier).size
    · simp only [if_pos hfit] at hp
      cases hp
    · simp only [if_neg hfit] at hp
      simp only [Option.some.injEq, Prod.mk.injEq] at hp
      exact hp.1.symm

/-- C6 witness: an arena with 1024 bytes in use in the Scene tier is
truncated to 512 bytes. -/
theorem c6_truncate_exactly_when_within_cursor_witness :
    512 ≤ ((((TieredAllocator.new 16 1048576).allocate 16 1000 Tier.Scene).2.1).getArena
      Tier.Scene).usage ∧
    ((((TieredAllocator.new 16 1048576).allocate 16 1000 Tier.Scene).2.1).fast_compact_tier
      16 Tier.Scene 512).1 = true :=
  ⟨by decide,
   (c6_truncate_exactly_when_within_cursor
      (((TieredAllocator.new 16 1048576).allocate 16 1000 Tier.Scene).2.1) 16 512 64
      Tier.Scene (by decide)).2.1⟩

/-- C10: frame effect of bulk reclamation: `reset_tier(tier)` and
`fast_compact_tier(tier, k)` (under the hypothesis that excludes the
region-growth path, i.e. `k ≤ cursor` or `k ≤ capacity`) modify only
tier `tier`'s allocation cursor: the other two arenas are unchanged,
the page count is unchanged, and within the affected arena the base,
capacity, tier, high-water mark and total-allocated fields are
unchanged. -/
theorem c10_reset_and_compact_touch_only_the_cursor (t : TieredAllocator)
    (pages k : Nat) (tier : Tier)
    (h : k ≤ (t.getArena tier).current_offset ∨ k ≤ (t.getArena tier).capacity) :
    ((t.reset_tier tier).getArena tier = { t.getArena tier with current_offset := 0 } ∧
     ∀ tier', tier' ≠ tier → (t.reset_tier tier).getArena tier' = t.getArena tier') ∧
    ((t.fast_compact_tier pages tier k).2.2 = pages ∧
     (∃ c, (t.fast_compact_tier pages tier k).2.1.getArena tier =
        { t.getArena tier with current_offset := c }) ∧
     ∀ tier', tier' ≠ tier →
       (t.fast_compact_tier pages tier k).2.1.getArena tier' = t.getArena tier') := by
  refine ⟨⟨?_, ?_⟩, ?_⟩
  · unfold TieredAllocator.reset_tier Arena.reset
    rw [getArena_setArena_self]
  · intro tier' hne
    unfold TieredAllocator.reset_tier
    exact getArena_setArena_ne t tier tier' _ hne
  · unfold TieredAllocator.fast_compact_tier
    by_cases hk : k > (t.getArena tier).current_offset
    · have hcap : ¬ (k > (t.getArena tier).capacity) := by
        unfold Arena.capacity
        unfold Arena.capacity at h
        omega
      rw [if_pos hk, if_neg hcap]
      unfold TieredAllocator.storeCursor
      refine ⟨by trivial, ⟨k, ?_⟩, ?_⟩
      · rw [getArena_setArena_self]
      · intro tier' hne
        exact getArena_setArena_ne t tier tier' _ hne
    · rw [if_neg hk]
      have hfc : (t.getArena tier).fast_compact k =
          (true, { t.getArena tier with current_offset := k }) := by
        unfold Arena.fast_compact
        rw [if_neg hk]
      rw [hfc]
      refine ⟨by trivial, ⟨k, ?_⟩, ?_⟩
      · rw [getArena_setArena_self]
      · intro tier' hne
        exact getArena_setArena_ne t tier tier' _ hne

/-- C10 witness: compacting the Scene tier of a fresh allocator to 0
bytes keeps the page count and yields the frame effect concretely. -/
theorem c10_reset_and_compact_touch_only_the_cursor_witness :
    (0 ≤ ((TieredAllocator.new 0 1000).getArena Tier.Scene).current_offset ∨
     0 ≤ ((TieredAllocator.new 0 1000).getArena Tier.Scene).capacity) ∧
    ((TieredAllocator.new 0 1000).fast_compact_tier 3 Tier.Scene 0).2.2 = 3 :=
  ⟨Or.inl (by decide),
   (c10_reset_and_compact_touch_only_the_cursor (TieredAllocator.new 0 1000) 3 0
      Tier.Scene (Or.inl (by decide))).2.1⟩

/-- A failed `Arena::allocate` leaves the arena unchanged. -/
theorem arena_allocate_none_snd (a : Arena) (size : Nat) (a2 : Arena)
    (h : a.allocate size = (none, a2)) : a2 = a := by
  unfold Arena.allocate at h
  by_cases hc : a.current_offset + tierAlign a.tier size > a.size
  · rw [if_pos hc] at h
    cases h
    rfl
  · rw [if_neg hc] at h
    cases h

/-- C4: recovery order of `TieredAllocator::allocate`.  (0) A
successful first attempt is returned as-is with no growth and no
reset.  On a failed first attempt: (1) if the region can grow, it
grows by exactly `ceil(size/64KiB)` pages (not geometrically), the
tier's arena is rebuilt over the new range, and the allocation is
retried exactly once on that rebuilt arena (a second failure falls
through to the sentinel); (2) if growth fails and the tier's current
usage exceeds the requested size, the tier is reset entirely and the
allocation retried once; (3) if growth fails and usage does not exceed
the request, the null sentinel is returned with nothing changed.  No
other recovery is attempted. -/
theorem c4_allocate_recovery_order (t : TieredAllocator) (pages size : Nat) (tier : Tier) :
    (∀ p asz a', (t.getArena tier).allocate size = (some (p, asz), a') →
       t.allocate pages size tier = (some p, t.setArena tier a', pages)) ∧
    (((t.getArena tier).allocate size).1 = none →
       pages + (size + 65535) / 65536 ≤ maxPages →
       (t.allocate pages size tier).2.2 = pages + (size + 65535) / 65536 ∧
       (t.allocate pages size tier).2.1.getArena tier =
         ((Arena.new (pages * 65536) ((size + 65535) / 65536 * 65536) tier).allocate
            size).2 ∧
       (t.allocate pages size tier).1 =
         (((Arena.new (pages * 65536) ((size + 65535) / 65536 * 65536) tier).allocate
            size).1).map Prod.fst) ∧
    (((t.getArena tier).allocate size).1 = none →
       maxPages < pages + (size + 65535) / 65536 →
       size < (t.getArena tier).current_offset →
       (t.allocate pages size tier).1 =
         (((t.getArena tier).reset.allocate size).1).map Prod.fst ∧
       (t.allocate pages size tier).2.2 = pages) ∧
    (((t.getArena tier).allocate size).1 = none →
       maxPages < pages + (size + 65535) / 65536 →
       (t.getArena tier).current_offset ≤ size →
       t.allocate pages size tier = (none, t, pages)) := by
  refine ⟨?_, ?_, ?_, ?_⟩
  · intro p asz a' h0
    unfold TieredAllocator.allocate
    rw [h0]
  · intro h0 hgrow
    rcases hfull : (t.getArena tier).allocate size with ⟨o, a0⟩
    rw [hfull] at h0
    simp only at h0
    subst h0
    unfold TieredAllocator.allocate TieredAllocator.growHeap memoryGrow
    rw [hfull]
    dsimp only
    rw [if_pos hgrow]
    dsimp only
    rw [getArena_setArena_self]
    rcases hretry : (Arena.new (pages * 65536) ((size + 65535) / 65536 * 65536)
        tier).allocate size with ⟨o2, a2⟩
    cases o2 with
    | none =>
      dsimp only
      exact ⟨rfl, by rw [getArena_setArena_self,
        arena_allocate_none_snd _ _ _ hretry], rfl⟩
    | some pa =>
      rcases pa with ⟨p2, asz2⟩
      dsimp only
      exact ⟨rfl, by rw [getArena_setArena_self], rfl⟩
  · intro h0 hnogrow husage
    rcases hfull : (t.getArena tier).allocate size with ⟨o, a0⟩
    rw [hfull] at h0
    simp only at h0
    subst h0
    have hcond : ¬ (pages + (size + 65535) / 65536 ≤ maxPages) := by omega
    unfold TieredAllocator.allocate TieredAllocator.growHeap memoryGrow
      TieredAllocator.reset_tier
    rw [hfull]
    dsimp only
    rw [if_neg hcond]
    dsimp only
    rw [if_pos (show ((t.getArena tier).get_stats).1 > size from husage)]
    rw [getArena_setArena_self]
    rcases hretry : (t.getArena tier).reset.allocate size with ⟨o2, a2⟩
    cases o2 with
    | none =>
      dsimp only
      exact ⟨rfl, rfl⟩
    | some pa =>
      rcases pa with ⟨p2, asz2⟩
      dsimp only
      exact ⟨rfl, rfl⟩
  · intro h0 hnogrow husage
    rcases hfull : (t.getArena tier).allocate size with ⟨o, a0⟩
    rw [hfull] at h0
    simp only at h0
    subst h0
    have hcond : ¬ (pages + (size + 65535) / 65536 ≤ maxPages) := by omega
    have hstats : ¬ (((t.getArena tier).get_stats).1 > size) := by
      have hx : (t.getArena tier).get_stats.1 = (t.getArena tier).current_offset := rfl
      omega
    unfold TieredAllocator.allocate TieredAllocator.growHeap memoryGrow
    rw [hfull]
    dsimp only
    rw [if_neg hcond]
    dsimp only
    rw [if_neg hstats]

/-- C4 witness: on a fresh 16-page tiered allocator the first Render
allocation succeeds on the first attempt, with no growth and no reset. -/
theorem c4_allocate_recovery_order_witness :
    (TieredAllocator.new 16 1048576).allocate 16 100 Tier.Render =
      (some 16,
       (TieredAllocator.new 16 1048576).setArena Tier.Render
         (((TieredAllocator.new 16 1048576).getArena Tier.Render).allocate 100).2,
       16) :=
  (c4_allocate_recovery_order (TieredAllocator.new 16 1048576) 16 100 Tier.Render).1
    16 128 (((TieredAllocator.new 16 1048576).getArena Tier.Render).allocate 100).2
    (by decide)

/-- Unfolding: freeing the head block (no predecessor). -/
theorem freeGo_head (target addr : Nat) (x : BlockHeader) (xs : List BlockHeader)
    (h : target = addr) :
    freeGo target addr (x :: xs) = fwdMerge { x with is_free := true } xs := by
  unfold freeGo
  rw [if_pos h]

/-- Unfolding: a miss on a one-block list. -/
theorem freeGo_single (target addr : Nat) (x : BlockHeader) (h : target ≠ addr) :
    freeGo target addr [x] = [x] := by
  unfold freeGo
  rw [if_neg h]

/-- Unfolding: freeing the second block (the head is its predecessor). -/
theorem freeGo_second (target addr : Nat) (x y : BlockHeader) (ys : List BlockHeader)
    (h1 : target ≠ addr) (h2 : target = addr + x.size) :
    freeGo target addr (x :: y :: ys) =
      bwdMerge x (fwdMerge { y with is_free := true } ys) := by
  unfold freeGo
  rw [if_neg h1]
  dsimp only
  rw [if_pos h2]

/-- Unfolding: the target lies beyond the first two block starts. -/
theorem freeGo_skip (target addr : Nat) (x y : BlockHeader) (ys : List BlockHeader)
    (h1 : target ≠ addr) (h2 : target ≠ addr + x.size) :
    freeGo target addr (x :: y :: ys) = x :: freeGo target (addr + x.size) (y :: ys) := by
  conv_lhs => unfold freeGo
  rw [if_neg h1]
  dsimp only
  rw [if_neg h2]

theorem sumBlocks_nil : sumBlocks [] = 0 := rfl

theorem sumBlocks_cons (b : BlockHeader) (bs : List BlockHeader) :
    sumBlocks (b :: bs) = b.size + sumBlocks bs := rfl

theorem sumBlocks_append (xs ys : List BlockHeader) :
    sumBlocks (xs ++ ys) = sumBlocks xs + sumBlocks ys := by
  induction xs with
  | nil =>
    show sumBlocks ys = 0 + sumBlocks ys
    omega
  | cons x xs ih =>
    simp only [List.cons_append, sumBlocks_cons, ih]
    omega

/-- Forward coalescing conserves the total block size. -/
theorem sum_fwdMerge (b : BlockHeader) (rest : List BlockHeader) :
    sumBlocks (fwdMerge b rest) = b.size + sumBlocks rest := by
  cases rest with
  | nil => rfl
  | cons y ys =>
    unfold fwdMerge
    dsimp only
    by_cases hy : y.is_free
    · rw [if_pos hy]
      simp only [sumBlocks_cons]
      omega
    · rw [if_neg hy]
      rfl

/-- Backward coalescing conserves the total block size. -/
theorem sum_bwdMerge (x : BlockHeader) (rest : List BlockHeader) :
    sumBlocks (bwdMerge x rest) = x.size + sumBlocks rest := by
  cases rest with
  | nil => rfl
  | cons y ys =>
    unfold bwdMerge
    dsimp only
    by_cases hx : x.is_free
    · rw [if_pos hx]
      simp only [sumBlocks_cons]
      omega
    · rw [if_neg hx]
      rfl

/-- A release (mark free + coalesce either way) conserves the total. -/
theorem sum_freeGo (target : Nat) :
    ∀ (blocks : List BlockHeader) (addr : Nat),
      sumBlocks (freeGo target addr blocks) = sumBlocks blocks := by
  intro blocks
  induction blocks with
  | nil => intro addr; rfl
  | cons x xs ih =>
    intro addr
    by_cases h1 : target = addr
    · rw [freeGo_head target addr x xs h1, sum_fwdMerge]
      rfl
    · cases xs with
      | nil => rw [freeGo_single target addr x h1]
      | cons y ys =>
        by_cases h2 : target = addr + x.size
        · rw [freeGo_second target addr x y ys h1 h2, sum_bwdMerge, sum_fwdMerge]
          simp only [sumBlocks_cons]
        · rw [freeGo_skip target addr x y ys h1 h2, sumBlocks_cons, ih,
            sumBlocks_cons]
          rfl

/-- A first-fit hit (with or without a split) conserves the total. -/
theorem sum_mallocLoop (totalSize : Nat) :
    ∀ (blocks : List BlockHeader) (addr : Nat) (bs : List BlockHeader) (p : Nat),
      mallocLoop totalSize addr blocks = some (bs, p) → sumBlocks bs = sumBlocks blocks := by
  intro blocks
  induction blocks with
  | nil =>
    intro addr bs p h
    cases h
  | cons x xs ih =>
    intro addr bs p h
    unfold mallocLoop at h
    by_cases hc : x.is_free = true ∧ totalSize ≤ x.size
    · rw [if_pos hc] at h
      by_cases hs : totalSize + headerSize + 8 ≤ x.size
      · rw [if_pos hs] at h
        simp only [Option.some.injEq, Prod.mk.injEq] at h
        rw [← h.1]
        simp only [sumBlocks_cons]
        omega
      · rw [if_neg hs] at h
        simp only [Option.some.injEq, Prod.mk.injEq] at h
        rw [← h.1]
        simp only [sumBlocks_cons]
    · rw [if_neg hc] at h
      rcases hr : mallocLoop totalSize (addr + x.size) xs with - | ⟨ys, q⟩
      · rw [hr] at h
        cases h
      · rw [hr] at h
        simp only [Option.some.injEq, Prod.mk.injEq] at h
        rw [← h.1, sumBlocks_cons, ih (addr + x.size) ys q hr, sumBlocks_cons]

/-- Conservation invariant of the free list: the blocks exactly tile
the managed range, so their total size equals `heap_end - heap_start`. -/
def conservedDA (d : DefaultAllocator) : Prop :=
  d.heapEnd = d.heapStart + sumBlocks d.blocks

/-- One call on the `DefaultAllocator`: a `malloc` or a `free`. -/
inductive DAOp
  | malloc (size : Nat)
  | free (ptr : Nat)

/-- Run a sequence of allocator calls (the page count rides along for
the growth primitive). -/
def runDA : DefaultAllocator × Nat → List DAOp → DefaultAllocator × Nat
  | s, [] => s
  | (d, pages), DAOp.malloc size :: ops =>
    runDA ((d.malloc pages size).1, (d.malloc pages size).2.1) ops
  | (d, pages), DAOp.free ptr :: ops => runDA (d.free ptr, pages) ops

/-- `grow_heap` preserves the conservation invariant and the heap
start: the appended block and the heap-end shift have equal size. -/
theorem growHeap_conserved (d : DefaultAllocator) (pages sizeNeeded : Nat)
    (h : conservedDA d) :
    conservedDA (d.growHeap pages sizeNeeded).1 ∧
    (d.growHeap pages sizeNeeded).1.heapStart = d.heapStart := by
  unfold DefaultAllocator.growHeap memoryGrow
  dsimp only
  by_cases hg : pages + (sizeNeeded + 65535) / 65536 ≤ maxPages
  · rw [if_pos hg]
    dsimp only
    split
    next bs2 p2 hm2 =>
      refine ⟨?_, rfl⟩
      unfold conservedDA at h ⊢
      dsimp only
      rw [sum_mallocLoop _ _ _ _ _ hm2, sumBlocks_append]
      simp only [sumBlocks_cons, sumBlocks_nil]
      omega
    next hm2 =>
      refine ⟨?_, rfl⟩
      unfold conservedDA at h ⊢
      dsimp only
      rw [sumBlocks_append]
      simp only [sumBlocks_cons, sumBlocks_nil]
      omega
  · rw [if_neg hg]
    exact ⟨h, rfl⟩

/-- `malloc` (first-fit, split, and the grow-then-retry path alike)
preserves the conservation invariant and the heap start. -/
theorem malloc_conserved (d : DefaultAllocator) (pages size : Nat)
    (h : conservedDA d) :
    conservedDA (d.malloc pages size).1 ∧ (d.malloc pages size).1.heapStart = d.heapStart := by
  unfold DefaultAllocator.malloc
  dsimp only
  rcases hm : mallocLoop (alignedSizeDefault size + headerSize) d.heapStart d.blocks
    with - | ⟨bs, p⟩
  · exact growHeap_conserved d pages (alignedSizeDefault size + headerSize) h
  · refine ⟨?_, rfl⟩
    unfold conservedDA at h ⊢
    dsimp only
    rw [sum_mallocLoop _ _ _ _ _ hm]
    exact h

/-- `free` preserves the conservation invariant and the heap bounds. -/
theorem free_conserved (d : DefaultAllocator) (ptr : Nat) (h : conservedDA d) :
    conservedDA (d.free ptr) ∧ (d.free ptr).heapStart = d.heapStart := by
  unfold DefaultAllocator.free
  by_cases hp : ptr = 0
  · rw [if_pos hp]
    exact ⟨h, rfl⟩
  · rw [if_neg hp]
    refine ⟨?_, rfl⟩
    unfold conservedDA at h ⊢
    dsimp only
    rw [sum_freeGo]
    exact h

/-- The invariant is preserved by every call sequence. -/
theorem runDA_conserved :
    ∀ (ops : List DAOp) (d : DefaultAllocator) (pages : Nat), conservedDA d →
      conservedDA (runDA (d, pages) ops).1 ∧
      (runDA (d, pages) ops).1.heapStart = d.heapStart := by
  intro ops
  induction ops with
  | nil => exact fun d pages h => ⟨h, rfl⟩
  | cons op ops ih =>
    intro d pages h
    cases op with
    | malloc size =>
      have hstep := malloc_conserved d pages size h
      have hrec := ih (d.malloc pages size).1 (d.malloc pages size).2.1 hstep.1
      exact ⟨hrec.1, hrec.2.trans hstep.2⟩
    | free ptr =>
      have hstep := free_conserved d ptr h
      have hrec := ih (d.free ptr) pages hstep.1
      exact ⟨hrec.1, hrec.2.trans hstep.2⟩

/-- C3: byte conservation on the FreeListAllocator.  For every initial
heap and every sequence of `malloc`/`free` calls, the sum of all block
sizes (free plus in-use, each block's size including its own header)
equals the allocator's total managed size `heap_end - heap_start` at
every point of the sequence (the statement quantifies over all
sequences, hence over all intermediate states); moreover the split
performed by a first-fit hit and the forward/backward coalescing
performed by a release each preserve the total on their own, so no
byte is leaked or double-counted. -/
theorem c3_free_list_conserves_managed_size (heapStart heapSize pages : Nat)
    (ops : List DAOp) :
    ((runDA (DefaultAllocator.new heapStart heapSize, pages) ops).1.heapEnd =
       (runDA (DefaultAllocator.new heapStart heapSize, pages) ops).1.heapStart +
         sumBlocks (runDA (DefaultAllocator.new heapStart heapSize, pages) ops).1.blocks ∧
     (runDA (DefaultAllocator.new heapStart heapSize, pages) ops).1.heapStart = heapStart) ∧
    (∀ totalSize addr blocks,
       sumBlocks ((mallocLoop totalSize addr blocks).elim blocks Prod.fst) =
         sumBlocks blocks) ∧
    (∀ target addr blocks, sumBlocks (freeGo target addr blocks) = sumBlocks blocks) := by
  refine ⟨?_, ?_, ?_⟩
  · have hinit : conservedDA (DefaultAllocator.new heapStart heapSize) := by
      unfold conservedDA DefaultAllocator.new
      dsimp only
      simp only [sumBlocks_cons]
      rfl
    exact runDA_conserved ops (DefaultAllocator.new heapStart heapSize) pages hinit
  · intro totalSize addr blocks
    rcases hm : mallocLoop totalSize addr blocks with - | ⟨bs, p⟩
    · rfl
    · exact sum_mallocLoop totalSize blocks addr bs p hm
  · intro target addr blocks
    exact sum_freeGo target blocks addr

theorem fwdMerge_cons_free (u y : BlockHeader) (ys : List BlockHeader)
    (hy : y.is_free = true) :
    fwdMerge u (y :: ys) = ⟨u.size + y.size, u.is_free, u.tier⟩ :: ys := by
  unfold fwdMerge
  dsimp only
  rw [if_pos hy]

theorem fwdMerge_cons_used (u y : BlockHeader) (ys : List BlockHeader)
    (hy : y.is_free = false) :
    fwdMerge u (y :: ys) = u :: y :: ys := by
  unfold fwdMerge
  dsimp only
  rw [if_neg (by simp [hy])]

theorem bwdMerge_cons_free (x y : BlockHeader) (ys : List BlockHeader)
    (hx : x.is_free = true) :
    bwdMerge x (y :: ys) = ⟨x.size + y.size, true, x.tier⟩ :: ys := by
  unfold bwdMerge
  dsimp only
  rw [if_pos hx, hx]

theorem bwdMerge_cons_used (x y : BlockHeader) (ys : List BlockHeader)
    (hx : x.is_free = false) :
    bwdMerge x (y :: ys) = x :: y :: ys := by
  unfold bwdMerge
  dsimp only
  rw [if_neg (by simp [hx])]

/-- `fwdMerge` always yields a nonempty list whose head keeps the
freed block's flag and tier. -/
theorem fwdMerge_shape (u : BlockHeader) (rest : List BlockHeader) :
    ∃ z zs, fwdMerge u rest = z :: zs ∧ z.is_free = u.is_free := by
  cases rest with
  | nil => exact ⟨u, [], rfl, rfl⟩
  | cons y ys =>
    by_cases hy : y.is_free
    · exact ⟨_, _, fwdMerge_cons_free u y ys hy, rfl⟩
    · exact ⟨_, _, fwdMerge_cons_used u y ys (by simpa using hy), rfl⟩

/-- `bwdMerge` always yields a nonempty list. -/
theorem bwdMerge_shape (x : BlockHeader) (rest : List BlockHeader) :
    ∃ w ws, bwdMerge x rest = w :: ws := by
  cases rest with
  | nil => exact ⟨x, [], rfl⟩
  | cons y ys =>
    by_cases hx : x.is_free
    · exact ⟨_, _, bwdMerge_cons_free x y ys hx⟩
    · exact ⟨_, _, bwdMerge_cons_used x y ys (by simpa using hx)⟩

/-- `freeGo` on a nonempty list yields a nonempty list. -/
theorem freeGo_shape (target addr : Nat) (y : BlockHeader) (ys : List BlockHeader) :
    ∃ w ws, freeGo target addr (y :: ys) = w :: ws := by
  by_cases h1 : target = addr
  · rw [freeGo_head _ _ _ _ h1]
    obtain ⟨z, zs, hz, -⟩ := fwdMerge_shape { y with is_free := true } ys
    exact ⟨z, zs, hz⟩
  · cases ys with
    | nil => exact ⟨y, [], freeGo_single _ _ _ h1⟩
    | cons y2 ys2 =>
      by_cases h2 : target = addr + y.size
      · rw [freeGo_second _ _ _ _ _ h1 h2]
        exact bwdMerge_shape _ _
      · exact ⟨y, _, freeGo_skip _ _ _ _ _ h1 h2⟩

/-- Merging a free block backward into a free predecessor produces the
same list as merging the predecessor forward into it. -/
theorem bwdMerge_eq_fwdMerge (u z : BlockHeader) (zs : List BlockHeader)
    (hu : u.is_free = true) (hz : z.is_free = true) :
    bwdMerge u (z :: zs) = fwdMerge u (z :: zs) := by
  rw [bwdMerge_cons_free _ _ _ hu, fwdMerge_cons_free _ _ _ hz, hu]

/-- Releasing two adjacent in-use blocks commutes: whichever of the
two is freed first, the final free list is the same.  `pre` is an
arbitrary prefix of blocks before the pair, `tail` an arbitrary
suffix, `addr` the address of the first listed block. -/
theorem freeGo_pair_comm (a b ta tb : Nat) (ha : 0 < a) (_hb : 0 < b) :
    ∀ (pre : List BlockHeader) (addr : Nat) (tail : List BlockHeader),
      (∀ p ∈ pre, 0 < p.size) →
      freeGo (addr + sumBlocks pre + a) addr
          (freeGo (addr + sumBlocks pre) addr
            (pre ++ ⟨a, false, ta⟩ :: ⟨b, false, tb⟩ :: tail)) =
        freeGo (addr + sumBlocks pre) addr
          (freeGo (addr + sumBlocks pre + a) addr
            (pre ++ ⟨a, false, ta⟩ :: ⟨b, false, tb⟩ :: tail)) := by
  intro pre
  induction pre with
  | nil =>
    intro addr tail _
    obtain ⟨z, zs, hzz, hzf⟩ := fwdMerge_shape (⟨b, true, tb⟩ : BlockHeader) tail
    simp only [List.nil_append, sumBlocks_nil, Nat.add_zero]
    have h1 : freeGo addr addr (⟨a, false, ta⟩ :: ⟨b, false, tb⟩ :: tail) =
        (⟨a, true, ta⟩ : BlockHeader) :: ⟨b, false, tb⟩ :: tail := by
      rw [freeGo_head addr addr ⟨a, false, ta⟩ (⟨b, false, tb⟩ :: tail) rfl]
      dsimp only
      exact fwdMerge_cons_used _ _ _ rfl
    have h2 : freeGo (addr + a) addr (⟨a, false, ta⟩ :: ⟨b, false, tb⟩ :: tail) =
        (⟨a, false, ta⟩ : BlockHeader) :: z :: zs := by
      rw [freeGo_second (addr + a) addr ⟨a, false, ta⟩ ⟨b, false, tb⟩ tail
        (by omega) (by dsimp only)]
      dsimp only
      rw [hzz]
      exact bwdMerge_cons_used _ _ _ rfl
    rw [h1, h2]
    rw [freeGo_second (addr + a) addr ⟨a, true, ta⟩ ⟨b, false, tb⟩ tail
      (by omega) (by dsimp only)]
    rw [freeGo_head addr addr ⟨a, false, ta⟩ (z :: zs) rfl]
    dsimp only
    rw [hzz]
    exact bwdMerge_eq_fwdMerge _ _ _ rfl hzf
  | cons p pre ih =>
    intro addr tail hpre
    have hp : 0 < p.size := hpre p (List.mem_cons_self p pre)
    cases pre with
    | nil =>
      obtain ⟨z, zs, hzz, hzf⟩ := fwdMerge_shape (⟨b, true, tb⟩ : BlockHeader) tail
      simp only [List.cons_append, List.nil_append, sumBlocks_cons, sumBlocks_nil,
        Nat.add_zero]
      have hA1 : freeGo (addr + p.size) addr
          (p :: ⟨a, false, ta⟩ :: ⟨b, false, tb⟩ :: tail) =
          bwdMerge p ((⟨a, true, ta⟩ : BlockHeader) :: ⟨b, false, tb⟩ :: tail) := by
        rw [freeGo_second (addr + p.size) addr p ⟨a, false, ta⟩
          (⟨b, false, tb⟩ :: tail) (by omega) rfl]
        dsimp only
        rw [fwdMerge_cons_used _ _ _ rfl]
      have hB1 : freeGo (addr + p.size + a) addr
          (p :: ⟨a, false, ta⟩ :: ⟨b, false, tb⟩ :: tail) =
          p :: (⟨a, false, ta⟩ : BlockHeader) :: z :: zs := by
        rw [freeGo_skip (addr + p.size + a) addr p ⟨a, false, ta⟩
          (⟨b, false, tb⟩ :: tail) (by omega) (by omega)]
        rw [freeGo_second (addr + p.size + a) (addr + p.size) ⟨a, false, ta⟩
          ⟨b, false, tb⟩ tail (by omega) (by dsimp only)]
        dsimp only
        rw [hzz]
        rw [bwdMerge_cons_used _ _ _ rfl]
      rw [hA1, hB1]
      by_cases hpf : p.is_free
      · rw [bwdMerge_cons_free _ _ _ hpf]
        rw [freeGo_second (addr + p.size + a) addr ⟨p.size + a, true, p.tier⟩
          ⟨b, false, tb⟩ tail (by omega) (by dsimp only; omega)]
        dsimp only
        rw [hzz]
        rw [bwdMerge_cons_free _ _ _ rfl]
        rw [freeGo_second (addr + p.size) addr p ⟨a, false, ta⟩ (z :: zs)
          (by omega) rfl]
        dsimp only
        rw [fwdMerge_cons_free _ _ _ hzf]
        dsimp only
        rw [bwdMerge_cons_free _ _ _ hpf]
        dsimp only
        rw [Nat.add_assoc]
      · have hpf' : p.is_free = false := by simpa using hpf
        rw [bwdMerge_cons_used _ _ _ hpf']
        rw [freeGo_skip (addr + p.size + a) addr p ⟨a, true, ta⟩
          (⟨b, false, tb⟩ :: tail) (by omega) (by omega)]
        rw [freeGo_second (addr + p.size + a) (addr + p.size) ⟨a, true, ta⟩
          ⟨b, false, tb⟩ tail (by omega) (by dsimp only)]
        dsimp only
        rw [hzz]
        rw [bwdMerge_cons_free _ _ _ rfl]
        rw [freeGo_second (addr + p.size) addr p ⟨a, false, ta⟩ (z :: zs)
          (by omega) rfl]
        dsimp only
        rw [fwdMerge_cons_free _ _ _ hzf]
        dsimp only
        rw [bwdMerge_cons_used _ _ _ hpf']
    | cons q pre' =>
      have hq : 0 < q.size :=
        hpre q (List.mem_cons_of_mem p (List.mem_cons_self q pre'))
      have hSQ : 0 < sumBlocks (q :: pre') := by
        rw [sumBlocks_cons]
        omega
      have e1 : addr + sumBlocks (p :: q :: pre') =
          addr + p.size + sumBlocks (q :: pre') := by
        simp only [sumBlocks_cons]
        omega
      rw [e1]
      simp only [List.cons_append]
      rw [freeGo_skip (addr + p.size + sumBlocks (q :: pre')) addr p q
        (pre' ++ ⟨a, false, ta⟩ :: ⟨b, false, tb⟩ :: tail) (by omega) (by omega)]
      rw [freeGo_skip (addr + p.size + sumBlocks (q :: pre') + a) addr p q
        (pre' ++ ⟨a, false, ta⟩ :: ⟨b, false, tb⟩ :: tail) (by omega) (by omega)]
      obtain ⟨w1, ws1, hw1⟩ := freeGo_shape (addr + p.size + sumBlocks (q :: pre'))
        (addr + p.size) q (pre' ++ ⟨a, false, ta⟩ :: ⟨b, false, tb⟩ :: tail)
      obtain ⟨w2, ws2, hw2⟩ := freeGo_shape
        (addr + p.size + sumBlocks (q :: pre') + a)
        (addr + p.size) q (pre' ++ ⟨a, false, ta⟩ :: ⟨b, false, tb⟩ :: tail)
      rw [hw1, hw2]
      rw [freeGo_skip (addr + p.size + sumBlocks (q :: pre') + a) addr p w1 ws1
        (by omega) (by omega)]
      rw [freeGo_skip (addr + p.size + sumBlocks (q :: pre')) addr p w2 ws2
        (by omega) (by omega)]
      rw [← hw1, ← hw2]
      have hrec := ih (addr + p.size) tail
        (fun x hx => hpre x (List.mem_cons_of_mem p hx))
      exact congrArg (fun l => p :: l) hrec

/-- Releasing two adjacent in-use blocks whose neighbours (the last
prefix block and the first suffix block, when they exist) are in use
leaves exactly one free block, spanning precisely the pair's combined
range, in place of the pair. -/
theorem freeGo_pair_merge (a b ta tb : Nat) (ha : 0 < a) (_hb : 0 < b) :
    ∀ (pre : List BlockHeader) (addr : Nat) (tail : List BlockHeader),
      (∀ p ∈ pre, 0 < p.size) →
      (∀ p, pre.getLast? = some p → p.is_free = false) →
      (∀ t, tail.head? = some t → t.is_free = false) →
      freeGo (addr + sumBlocks pre + a) addr
          (freeGo (addr + sumBlocks pre) addr
            (pre ++ ⟨a, false, ta⟩ :: ⟨b, false, tb⟩ :: tail)) =
        pre ++ ⟨a + b, true, ta⟩ :: tail := by
  intro pre
  induction pre with
  | nil =>
    intro addr tail _ _ htail
    have hfb : fwdMerge (⟨b, true, tb⟩ : BlockHeader) tail =
        (⟨b, true, tb⟩ : BlockHeader) :: tail := by
      cases tail with
      | nil => rfl
      | cons t ts => exact fwdMerge_cons_used _ _ _ (htail t rfl)
    simp only [List.nil_append, sumBlocks_nil, Nat.add_zero]
    rw [freeGo_head addr addr ⟨a, false, ta⟩ (⟨b, false, tb⟩ :: tail) rfl]
    dsimp only
    rw [fwdMerge_cons_used _ _ _ rfl]
    rw [freeGo_second (addr + a) addr ⟨a, true, ta⟩ ⟨b, false, tb⟩ tail
      (by omega) (by dsimp only)]
    dsimp only
    rw [hfb, bwdMerge_cons_free _ _ _ rfl]
  | cons p pre ih =>
    intro addr tail hpre hlast htail
    have hp : 0 < p.size := hpre p (List.mem_cons_self p pre)
    cases pre with
    | nil =>
      have hpf : p.is_free = false := hlast p rfl
      have hfb : fwdMerge (⟨b, true, tb⟩ : BlockHeader) tail =
          (⟨b, true, tb⟩ : BlockHeader) :: tail := by
        cases tail with
        | nil => rfl
        | cons t ts => exact fwdMerge_cons_used _ _ _ (htail t rfl)
      simp only [List.cons_append, List.nil_append, sumBlocks_cons, sumBlocks_nil,
        Nat.add_zero]
      rw [freeGo_second (addr + p.size) addr p ⟨a, false, ta⟩
        (⟨b, false, tb⟩ :: tail) (by omega) rfl]
      dsimp only
      rw [fwdMerge_cons_used _ _ _ rfl]
      rw [bwdMerge_cons_used _ _ _ hpf]
      rw [freeGo_skip (addr + p.size + a) addr p ⟨a, true, ta⟩
        (⟨b, false, tb⟩ :: tail) (by omega) (by omega)]
      rw [freeGo_second (addr + p.size + a) (addr + p.size) ⟨a, true, ta⟩
        ⟨b, false, tb⟩ tail (by omega) (by dsimp only)]
      dsimp only
      rw [hfb, bwdMerge_cons_free _ _ _ rfl]
    | cons q pre' =>
      have hq : 0 < q.size :=
        hpre q (List.mem_cons_of_mem p (List.mem_cons_self q pre'))
      have hSQ : 0 < sumBlocks (q :: pre') := by
        rw [sumBlocks_cons]
        omega
      have e1 : addr + sumBlocks (p :: q :: pre') =
          addr + p.size + sumBlocks (q :: pre') := by
        simp only [sumBlocks_cons]
        omega
      rw [e1]
      simp only [List.cons_append]
      rw [freeGo_skip (addr + p.size + sumBlocks (q :: pre')) addr p q
        (pre' ++ ⟨a, false, ta⟩ :: ⟨b, false, tb⟩ :: tail) (by omega) (by omega)]
      obtain ⟨w1, ws1, hw1⟩ := freeGo_shape (addr + p.size + sumBlocks (q :: pre'))
        (addr + p.size) q (pre' ++ ⟨a, false, ta⟩ :: ⟨b, false, tb⟩ :: tail)
      rw [hw1]
      rw [freeGo_skip (addr + p.size + sumBlocks (q :: pre') + a) addr p w1 ws1
        (by omega) (by omega)]
      rw [← hw1]
      have hrec := ih (addr + p.size) tail
        (fun x hx => hpre x (List.mem_cons_of_mem p hx))
        (fun x hx => hlast x (by rw [List.getLast?_cons_cons]; exact hx)) htail
      exact congrArg (fun l => p :: l) hrec

/-- `DefaultAllocator::free` at a data pointer steps back over the
header and frees the block at that header address. -/
theorem free_at (d : DefaultAllocator) (t : Nat) :
    d.free (t + headerSize) = { d with blocks := freeGo t d.heapStart d.blocks } := by
  unfold DefaultAllocator.free
  rw [if_neg (by simp [headerSize]), Nat.add_sub_cancel]

/-- C8: coalescing symmetry.  For two adjacent in-use blocks (of sizes
`a` and `b`, headers included, sitting after an arbitrary prefix `pre`
and before an arbitrary suffix `tail`), releasing both through
`DefaultAllocator::free`, in either order, produces the same final
free list; and when the pair's immediate neighbours are in use (or
absent), the result replaces the pair by exactly one free block of
size `a + b` spanning precisely their combined range. -/
theorem c8_adjacent_release_coalesces_symmetrically
    (a b ta tb heapStart heapEnd : Nat) (ha : 0 < a) (hb : 0 < b) :
    (∀ (pre tail : List BlockHeader), (∀ p ∈ pre, 0 < p.size) →
      ((DefaultAllocator.mk (pre ++ ⟨a, false, ta⟩ :: ⟨b, false, tb⟩ :: tail)
            heapStart heapEnd).free
          (heapStart + sumBlocks pre + headerSize)).free
        (heapStart + sumBlocks pre + a + headerSize) =
      ((DefaultAllocator.mk (pre ++ ⟨a, false, ta⟩ :: ⟨b, false, tb⟩ :: tail)
            heapStart heapEnd).free
          (heapStart + sumBlocks pre + a + headerSize)).free
        (heapStart + sumBlocks pre + headerSize)) ∧
    (∀ (pre tail : List BlockHeader), (∀ p ∈ pre, 0 < p.size) →
      (∀ p, pre.getLast? = some p → p.is_free = false) →
      (∀ t, tail.head? = some t → t.is_free = false) →
      (((DefaultAllocator.mk (pre ++ ⟨a, false, ta⟩ :: ⟨b, false, tb⟩ :: tail)
            heapStart heapEnd).free
          (heapStart + sumBlocks pre + headerSize)).free
        (heapStart + sumBlocks pre + a + headerSize)).blocks =
      pre ++ ⟨a + b, true, ta⟩ :: tail) := by
  constructor
  · intro pre tail hpre
    simp only [free_at]
    exact congrArg (fun bs => DefaultAllocator.mk bs heapStart heapEnd)
      (freeGo_pair_comm a b ta tb ha hb pre heapStart tail hpre)
  · intro pre tail hpre hlast htail
    simp only [free_at]
    exact freeGo_pair_merge a b ta tb ha hb pre heapStart tail hpre hlast htail

/-- C8 witness: two adjacent in-use blocks of 116 and 64 bytes filling
a 180-byte heap coalesce into the single 180-byte free block. -/
theorem c8_adjacent_release_coalesces_symmetrically_witness :
    (0:Nat) < 116 ∧ (0:Nat) < 64 ∧
    (((DefaultAllocator.mk ([] ++ ⟨116, false, 255⟩ :: ⟨64, false, 255⟩ :: [])
          16 196).free (16 + sumBlocks [] + headerSize)).free
        (16 + sumBlocks [] + 116 + headerSize)).blocks =
      [] ++ ⟨116 + 64, true, 255⟩ :: [] :=
  ⟨by decide, by decide,
   (c8_adjacent_release_coalesces_symmetrically 116 64 255 255 16 196 (by decide)
       (by decide)).2 [] [] (by simp) (fun _ h => by cases h) (fun _ h => by cases h)⟩
